import Mathlib

/-!
Verification of the Dependency Graph & Task-Splitting Engine.

Shallow embedding of the repository sources:
  * `src/models/task.py`                 — task data model,
  * `src/storage/networkx_graph.py`      — NetworkX-backed graph store,
  * `src/storage/duckdb_table.py`        — DuckDB-backed record store,
  * `src/services/task_service.py`       — coordination layer,
  * `src/models/task_splitting.py`       — split request/result models,
  * `src/services/task_splitting_service.py` — splitting engine.

Conventions of the embedding:
  * Python `UUID` identifiers are opaque strings (`String`); the string form
    `str(uuid)` used as a dictionary key is then the identifier itself.
  * `datetime` timestamps are opaque `Nat` values; no claim depends on them.
  * Python functions that can raise are modelled with `Except String`;
    stateful methods return the result paired with the successor state
    (exceptions propagate the state mutated so far, as in Python).
  * NetworkX calls are replaced by their documented list-based semantics:
    `topological_generations`/`topological_sort` is Kahn peeling of
    zero-in-degree layers, and `is_directed_acyclic_graph` is the test that
    the sort consumed every node.
-/

namespace SpectrumCockpit

/-! ## Ordering helper: `u` occurs (somewhere) before `v` in a list -/

/-- `Before l u v` : the list `l` can be split so that `u` is in the left part
and `v` in the right part.  On duplicate-free lists this is exactly "the
(unique) occurrence of `u` precedes the occurrence of `v`". -/
def Before (l : List String) (u v : String) : Prop :=
  ∃ l₁ l₂, l = l₁ ++ l₂ ∧ u ∈ l₁ ∧ v ∈ l₂

theorem Before.append_left {l₁ l₂ : List String} {u v : String}
    (hu : u ∈ l₁) (hv : v ∈ l₂) : Before (l₁ ++ l₂) u v :=
  ⟨l₁, l₂, rfl, hu, hv⟩

theorem Before.append_right {l₂ : List String} (l₁ : List String) {u v : String}
    (h : Before l₂ u v) : Before (l₁ ++ l₂) u v := by
  obtain ⟨a, b, rfl, hu, hv⟩ := h
  exact ⟨l₁ ++ a, b, by simp, by simp [hu], hv⟩

theorem Before.reverse {l : List String} {u v : String}
    (h : Before l u v) : Before l.reverse v u := by
  obtain ⟨a, b, rfl, hu, hv⟩ := h
  exact ⟨b.reverse, a.reverse, by simp, by simp [hv], by simp [hu]⟩

theorem Before.filter {l : List String} {u v : String} (p : String → Bool)
    (h : Before l u v) (hu : p u = true) (hv : p v = true) :
    Before (l.filter p) u v := by
  obtain ⟨a, b, rfl, hua, hvb⟩ := h
  exact ⟨a.filter p, b.filter p, by simp,
    List.mem_filter.mpr ⟨hua, hu⟩, List.mem_filter.mpr ⟨hvb, hv⟩⟩

/-! ## Data model (`src/models/task.py`) -/

/-- `TaskStatus` enumeration. -/
inductive TaskStatus
  | PENDING | IN_PROGRESS | COMPLETED | BLOCKED
deriving DecidableEq, Repr

/-- `Priority` enumeration (P0 highest … P3 lowest). -/
inductive Priority
  | P0 | P1 | P2 | P3
deriving DecidableEq, Repr

/-- `ComplexityLevel` enumeration. -/
inductive ComplexityLevel
  | SIMPLE | MODERATE | COMPLEX | EPIC
deriving DecidableEq, Repr

/-- `RelatedFileType` enumeration. -/
inductive RelatedFileType
  | TO_MODIFY | REFERENCE | CREATE | DEPENDENCY | OTHER
deriving DecidableEq, Repr

/-- `RelatedFile`: file annotation attached to a task. -/
structure RelatedFile where
  path : String
  type : RelatedFileType
  description : String
  line_start : Option Nat := none
  line_end : Option Nat := none
deriving DecidableEq, Repr

/-- `TaskDependency`: a resolved dependency reference (identifier of the
depended-upon task). -/
structure TaskDependency where
  task_id : String
deriving DecidableEq, Repr

/-- `Task`: the full task record. Identifiers are opaque strings, timestamps
opaque naturals. -/
structure Task where
  id : String
  name : String
  description : String
  implementation_guide : String
  verification_criteria : Option String := none
  status : TaskStatus := .PENDING
  priority : Priority := .P2
  complexity : Option ComplexityLevel := none
  estimated_hours : Option Nat := none
  dependencies : List TaskDependency := []
  related_files : List RelatedFile := []
  category : Option String := none
  notes : Option String := none
  created_at : Nat := 0
  updated_at : Nat := 0
deriving DecidableEq, Repr

/-- Display-metadata snapshot carried by a graph node (the `data` dict built
by `TaskService`). -/
structure NodeData where
  name : String
  status : TaskStatus
  priority : Priority
  complexity : Option ComplexityLevel
  category : Option String
deriving DecidableEq, Repr

/-- `GraphNode`: identifier plus display-metadata bag. -/
structure GraphNode where
  id : String
  data : NodeData
deriving DecidableEq, Repr

/-- `GraphEdge`: dependent → depended-upon, with a relationship label. -/
structure GraphEdge where
  from_id : String
  to_id : String
  relationship : String := "depends_on"
deriving DecidableEq, Repr

/-! ## Graph store (`src/storage/networkx_graph.py`) -/

/-- State of `NetworkXGraphStorage`: the `_nodes` dict (insertion order) and
the edge set of the underlying `nx.DiGraph` (keyed by the `(from, to)` pair;
inserting an existing pair only replaces the relationship attribute). -/
structure GraphState where
  nodes : List GraphNode := []
  edges : List GraphEdge := []
deriving DecidableEq, Repr

namespace GraphState

/-- Identifier list of the stored nodes. -/
def nodeIds (g : GraphState) : List String := g.nodes.map GraphNode.id

/-- `(from, to)` pairs of the stored edges. -/
def edgePairs (g : GraphState) : List (String × String) :=
  g.edges.map fun e => (e.from_id, e.to_id)

/-- `node.id in self._nodes`. -/
def hasNode (g : GraphState) (i : String) : Bool := g.nodes.any fun n => n.id == i

/-- `self._graph.has_edge(u, v)` (membership of the keyed pair). -/
def hasEdgePair (g : GraphState) (u v : String) : Bool :=
  g.edges.any fun e => e.from_id == u && e.to_id == v

/-- `nx.DiGraph.add_edge`: replace the attributes of an existing `(from, to)`
edge, or append a new edge. -/
def insertEdge (g : GraphState) (e : GraphEdge) : GraphState :=
  if g.hasEdgePair e.from_id e.to_id then
    { g with edges := g.edges.map fun x =>
        if x.from_id == e.from_id && x.to_id == e.to_id then e else x }
  else
    { g with edges := g.edges ++ [e] }

/-- `nx.DiGraph.remove_edge` on the `(from, to)` key. -/
def erasePair (g : GraphState) (u v : String) : GraphState :=
  { g with edges := g.edges.filter fun x => !(x.from_id == u && x.to_id == v) }

/-- `add_node`: `False` (and no change) if the identifier is present. -/
def addNode (g : GraphState) (n : GraphNode) : Bool × GraphState :=
  if g.hasNode n.id then (false, g)
  else (true, { g with nodes := g.nodes ++ [n] })

/-! Kahn peeling, mirroring `nx.topological_generations` /
`nx.topological_sort`: repeatedly emit the layer of nodes with no incoming
edge from a still-remaining node. -/

/-- `v` has no incoming edge whose source is still remaining. -/
def noIncoming (edges : List (String × String)) (remaining : List String)
    (v : String) : Bool :=
  edges.all fun e => !(e.2 == v && remaining.contains e.1)

/-- One zero-in-degree layer at a time; an empty layer with nodes remaining is
the `NetworkXUnfeasible` (cycle) case, rendered as early termination. -/
def kahnAux (edges : List (String × String)) :
    Nat → List String → List String
  | 0, _ => []
  | fuel + 1, remaining =>
    let layer := remaining.filter (noIncoming edges remaining)
    if layer.isEmpty then []
    else layer ++ kahnAux edges fuel (remaining.filter fun v => !(layer.contains v))

/-- `list(nx.topological_sort(G))` when it succeeds; a strict prefix of the
nodes when the graph has a cycle. -/
def kahnList (g : GraphState) : List String :=
  kahnAux g.edgePairs g.nodeIds.length g.nodeIds

/-- `has_cycle` = `not nx.is_directed_acyclic_graph(G)`; in NetworkX the DAG
test is "the topological sort consumes every node". -/
def hasCycleB (g : GraphState) : Bool := (kahnList g).length != g.nodeIds.length

/-- `_would_create_cycle`: speculatively insert the edge and test. (The
speculative state is handled functionally; `addEdge` below reproduces the
mutation footprint of the insert/test/remove sequence.) -/
def wouldCreateCycle (g : GraphState) (e : GraphEdge) : Bool :=
  hasCycleB (g.insertEdge e)

/-- `add_edge`: reject if an endpoint is absent (state untouched) or if the
edge would close a cycle (the Python speculative check leaves the graph equal
to the original minus the `(from, to)` pair, which is only observable when
the pair pre-existed — impossible on an acyclic graph). -/
def addEdge (g : GraphState) (e : GraphEdge) : Bool × GraphState :=
  if !(g.hasNode e.from_id) || !(g.hasNode e.to_id) then (false, g)
  else if g.wouldCreateCycle e then (false, g.erasePair e.from_id e.to_id)
  else (true, g.insertEdge e)

/-- `remove_node`: cascade removal of every edge touching the node. -/
def removeNode (g : GraphState) (i : String) : Bool × GraphState :=
  if g.hasNode i then
    (true, { nodes := g.nodes.filter fun n => !(n.id == i),
             edges := g.edges.filter fun e => !(e.from_id == i) && !(e.to_id == i) })
  else (false, g)

/-- `get_dependencies`: successors; empty list for an absent node. -/
def getDependencies (g : GraphState) (i : String) : List String :=
  if g.hasNode i then (g.edges.filter fun e => e.from_id == i).map GraphEdge.to_id
  else []

/-- `get_dependents`: predecessors; empty list for an absent node. -/
def getDependents (g : GraphState) (i : String) : List String :=
  if g.hasNode i then (g.edges.filter fun e => e.to_id == i).map GraphEdge.from_id
  else []

/-- `topological_sort`: raises `ValueError("Graph contains cycles")` when
`has_cycle()` holds. -/
def topologicalSort (g : GraphState) : Except String (List String) :=
  if g.hasCycleB then .error "Graph contains cycles" else .ok (kahnList g)

/-- Successors of `v` in the raw edge list. -/
def succsOf (edges : List (String × String)) (v : String) : List String :=
  (edges.filter fun e => e.1 == v).map Prod.snd

/-- One breadth-first expansion step over the visited set. -/
def reachStep (edges : List (String × String)) (visited : List String) :
    List String :=
  visited.foldl (fun acc v =>
    acc ++ ((succsOf edges v).filter fun w => !(acc.contains w))) visited

/-- Reachable set computed by iterating expansion (fuel = node count bound). -/
def reachSet (edges : List (String × String)) : Nat → List String → List String
  | 0, visited => visited
  | fuel + 1, visited => reachSet edges fuel (reachStep edges visited)

/-- Identifiers reachable from `i` (including `i` itself). -/
def reachableFrom (g : GraphState) (i : String) : List String :=
  reachSet g.edgePairs g.nodeIds.length [i]

/-- `get_descendants` (`nx.descendants`): nodes reachable from `i`, excluding
`i`; empty list for an absent node. -/
def getDescendants (g : GraphState) (i : String) : List String :=
  if g.hasNode i then (g.reachableFrom i).filter fun w => !(w == i)
  else []

/-- `get_ancestors` (`nx.ancestors`): nodes from which `i` is reachable,
excluding `i`; empty list for an absent node. -/
def getAncestors (g : GraphState) (i : String) : List String :=
  if g.hasNode i then
    (g.nodeIds.filter fun w => (g.reachableFrom w).contains i).filter
      fun w => !(w == i)
  else []

/-- Breadth-first search for a path (frontier of reversed paths). -/
def bfsPath (edges : List (String × String)) (target : String) :
    Nat → List (List String) → List String → Option (List String)
  | 0, _, _ => none
  | _ + 1, [], _ => none
  | fuel + 1, path :: frontier, visited =>
    match path with
    | [] => bfsPath edges target fuel frontier visited
    | v :: _ =>
      if v == target then some path.reverse
      else
        let next := (succsOf edges v).filter fun w => !(visited.contains w)
        bfsPath edges target fuel (frontier ++ next.map (· :: path))
          (visited ++ next)

/-- `get_shortest_path`: `nx.shortest_path` inside
`try … except (NetworkXNoPath, NodeNotFound): return None` — absent endpoints
and unreachable targets both give `None`. -/
def getShortestPath (g : GraphState) (u v : String) : Option (List String) :=
  if !(g.hasNode u) || !(g.hasNode v) then none
  else bfsPath g.edgePairs v (g.nodeIds.length + 1) [[u]] [u]

/-- `is_reachable`: calls `nx.has_path`, which only catches `NetworkXNoPath`;
a missing endpoint raises `NodeNotFound`, and the storage method does not
catch it. -/
def isReachable (g : GraphState) (u v : String) : Except String Bool :=
  if !(g.hasNode u) || !(g.hasNode v) then
    .error "NodeNotFound: either source or target is not in G"
  else .ok ((g.reachableFrom u).contains v)

end GraphState

/-! ## Record store (`src/storage/duckdb_table.py`)

The DuckDB table stores each task as one row keyed by `str(item.id)`; the
JSON round trip through `model_dump_json`/`model_validate` reproduces every
model field, so a row is modelled as the record itself, in insertion order
(`ORDER BY created_at` over the row-insertion timestamps). -/

/-- State of `DuckDBTableStorage` for the `Task` model. -/
structure TableState where
  rows : List Task := []
deriving DecidableEq, Repr

namespace TableState

/-- `exists(item_id)`. -/
def existsId (t : TableState) (i : String) : Bool := t.rows.any fun r => r.id == i

/-- `create`: raises if the identifier is already present, else inserts. -/
def create (t : TableState) (item : Task) : Except String TableState :=
  if t.existsId item.id then .error s!"Item with ID {item.id} already exists"
  else .ok { rows := t.rows ++ [item] }

/-- `get_by_id`. -/
def getById (t : TableState) (i : String) : Option Task :=
  t.rows.find? fun r => r.id == i

/-- `update`: raises if the identifier is absent, else replaces the row. -/
def update (t : TableState) (item : Task) : Except String TableState :=
  if t.existsId item.id then
    .ok { rows := t.rows.map fun r => if r.id == item.id then item else r }
  else .error s!"Item with ID {item.id} does not exist"

/-- `delete`: `False` when absent. -/
def delete (t : TableState) (i : String) : Bool × TableState :=
  if t.existsId i then (true, { rows := t.rows.filter fun r => !(r.id == i) })
  else (false, t)

/-- `query({"status": s})`: exact-match filter on the status field. -/
def queryStatus (t : TableState) (s : TaskStatus) : List Task :=
  t.rows.filter fun r => decide (r.status = s)

/-- `clear`. -/
def clear (_ : TableState) : TableState := { rows := [] }

end TableState

/-! ## Coordination layer (`src/services/task_service.py`) -/

/-- Combined state of the two stores owned by `TaskService`. -/
structure SysState where
  table : TableState := {}
  graph : GraphState := {}
deriving DecidableEq, Repr

namespace SysState

/-- The display-metadata snapshot `TaskService` builds for a task. -/
def graphNodeOf (t : Task) : GraphNode :=
  { id := t.id,
    data := { name := t.name, status := t.status, priority := t.priority,
              complexity := t.complexity, category := t.category } }

/-- `_add_task_dependencies`: per dependency, raise if the target record is
missing, else add the edge and raise if the edge is rejected (cycle). The
exception propagates with the mutations already performed. -/
def addTaskDependencies (s : SysState) (taskId : String) :
    List TaskDependency → Except String Unit × SysState
  | [] => (.ok (), s)
  | d :: rest =>
    match s.table.getById d.task_id with
    | none => (.error s!"Dependency task {d.task_id} not found", s)
    | some _ =>
      let (added, g') := s.graph.addEdge { from_id := taskId, to_id := d.task_id }
      if added then addTaskDependencies { s with graph := g' } taskId rest
      else (.error s!"Failed to add dependency: {taskId} -> {d.task_id} (would create cycle)",
            { s with graph := g' })

/-- `create_task`: table insert, then graph node (with rollback of the table
insert if the node is rejected), then dependency edges. -/
def createTask (s : SysState) (t : Task) : Except String Task × SysState :=
  match s.table.create t with
  | .error m => (.error m, s)
  | .ok table' =>
    let (nodeCreated, g') := s.graph.addNode (graphNodeOf t)
    if !nodeCreated then
      (.error s!"Failed to create graph node for task {t.id}",
       { table := (table'.delete t.id).2, graph := g' })
    else
      let s' : SysState := { table := table', graph := g' }
      match s'.addTaskDependencies t.id t.dependencies with
      | (.ok _, s'') => (.ok t, s'')
      | (.error m, s'') => (.error m, s'')

/-- `get_task`. -/
def getTask (s : SysState) (i : String) : Option Task := s.table.getById i

/-- `update_task`: write-through table update, full node replacement
(remove + re-add), then re-add the task's own dependency edges. -/
def updateTask (s : SysState) (t : Task) : Except String Task × SysState :=
  match s.table.update t with
  | .error m => (.error m, s)
  | .ok table' =>
    let (_, g₁) := s.graph.removeNode t.id
    let (_, g₂) := g₁.addNode (graphNodeOf t)
    let s' : SysState := { table := table', graph := g₂ }
    match s'.addTaskDependencies t.id t.dependencies with
    | (.ok _, s'') => (.ok t, s'')
    | (.error m, s'') => (.error m, s'')

/-- `delete_task`: delete from both stores; true only if both removals hit. -/
def deleteTask (s : SysState) (i : String) : Bool × SysState :=
  let (tableDeleted, table') := s.table.delete i
  let (graphDeleted, g') := s.graph.removeNode i
  (tableDeleted && graphDeleted, { table := table', graph := g' })

/-- `get_task_dependencies`: graph successors resolved to records, silently
skipping identifiers with no record. -/
def taskDependencyTasks (s : SysState) (i : String) : List Task :=
  (s.graph.getDependencies i).filterMap s.table.getById

/-- The readiness test applied per task by `get_ready_tasks`. -/
def isReady (s : SysState) (t : Task) : Bool :=
  let deps := s.taskDependencyTasks t.id
  if deps.isEmpty then true
  else deps.all fun d => decide (d.status = .COMPLETED)

/-- `get_ready_tasks`: filter by status first when requested, then keep the
tasks whose dependencies are all COMPLETED. -/
def getReadyTasks (s : SysState) (statusFilter : Option TaskStatus) : List Task :=
  let allTasks := match statusFilter with
    | some st => s.table.queryStatus st
    | none => s.table.rows
  allTasks.filter s.isReady

/-- `get_execution_order`: reversed topological sort resolved to records,
silently skipping identifiers with no record. -/
def getExecutionOrder (s : SysState) : Except String (List Task) :=
  match s.graph.topologicalSort with
  | .error m => .error m
  | .ok ids => .ok (ids.reverse.filterMap s.table.getById)

end SysState

/-! ## Splitting models (`src/models/task_splitting.py`) -/

/-- Python `str.strip()` (also applied by the models' whitespace-stripping
configuration): drop leading and trailing whitespace. -/
def pyStrip (s : String) : String :=
  ⟨((s.data.dropWhile Char.isWhitespace).reverse.dropWhile Char.isWhitespace).reverse⟩

/-- `UpdateMode` enumeration. -/
inductive UpdateMode
  | APPEND | OVERWRITE | SELECTIVE | CLEAR_ALL_TASKS
deriving DecidableEq, Repr

/-- `GranularityRules` with its numeric bounds (defaults as in the model). -/
structure GranularityRules where
  min_task_duration_hours : Nat := 1
  max_task_duration_hours : Nat := 16
  max_subtasks_per_split : Nat := 10
  max_task_raw_length : Nat := 5000
  max_task_name_length : Nat := 100
  min_description_length : Nat := 10
  max_depth_levels : Nat := 3
deriving DecidableEq, Repr

namespace GranularityRules

/-- `validate_task_count`. -/
def validateTaskCount (r : GranularityRules) (count : Nat) : Bool :=
  decide (1 ≤ count) && decide (count ≤ r.max_subtasks_per_split)

/-- `validate_task_name_length` (on the stripped name). -/
def validateTaskNameLength (r : GranularityRules) (name : String) : Bool :=
  decide (1 ≤ (pyStrip name).length) && decide ((pyStrip name).length ≤ r.max_task_name_length)

/-- `validate_description_length` (on the stripped description). -/
def validateDescriptionLength (r : GranularityRules) (description : String) : Bool :=
  decide (r.min_description_length ≤ (pyStrip description).length)

end GranularityRules

/-- `TaskTemplate`: an unpersisted draft whose dependencies are name-or-id
reference strings. -/
structure TaskTemplate where
  name : String
  description : String
  implementation_guide : String
  dependencies : List String := []
  notes : Option String := none
  related_files : List RelatedFile := []
  verification_criteria : Option String := none
  priority : Priority := .P2
  complexity : Option ComplexityLevel := none
  estimated_hours : Option Nat := none
  category : Option String := none
deriving DecidableEq, Repr

namespace TaskTemplate

/-- `to_task`: status PENDING, dependencies left empty (resolved later).
The freshly generated `uuid4` identifier is supplied explicitly. -/
def toTask (tpl : TaskTemplate) (freshId : String) : Task :=
  { id := freshId,
    name := tpl.name,
    description := tpl.description,
    implementation_guide := tpl.implementation_guide,
    verification_criteria := some ((tpl.verification_criteria).getD ""),
    status := .PENDING,
    priority := tpl.priority,
    complexity := tpl.complexity,
    estimated_hours := tpl.estimated_hours,
    category := tpl.category,
    notes := tpl.notes,
    dependencies := [],
    related_files := tpl.related_files }

end TaskTemplate

/-- `TaskSplitRequest`. -/
structure TaskSplitRequest where
  update_mode : UpdateMode := .CLEAR_ALL_TASKS
  task_templates : List TaskTemplate
  granularity_rules : GranularityRules := {}
deriving Repr

namespace TaskSplitRequest

/-- `validate_granularity`: task count plus per-template name/description
bounds (the Python early-`return False` loop is the conjunction). -/
def validateGranularity (req : TaskSplitRequest) : Bool :=
  req.granularity_rules.validateTaskCount req.task_templates.length &&
  req.task_templates.all fun tpl =>
    req.granularity_rules.validateTaskNameLength tpl.name &&
    req.granularity_rules.validateDescriptionLength tpl.description

end TaskSplitRequest

/-- `SplitOperation` audit record (timestamp elided — opaque wall clock). -/
structure SplitOperation where
  operation_type : String
  update_mode : UpdateMode
  tasks_before_count : Nat
  tasks_after_count : Nat
  tasks_added : Nat
  tasks_updated : Nat
  tasks_removed : Nat
deriving DecidableEq, Repr

/-- `SplitResult`. -/
structure SplitResult where
  success : Bool
  created_tasks : List Task
  operation : Option SplitOperation
  message : String
  errors : List String
deriving Repr

/-! ## Dependency resolver (`src/services/task_splitting_service.py`,
`DependencyResolver`) -/

namespace DependencyResolver

/-- Resolve one reference string: stripped, matched first against
`id_to_task` (keys `str(task.id)`, later entries shadow earlier as
in a Python dict), then against `name_to_task`; unmatched references are
dropped. -/
def resolveRef (existing_tasks : List Task) (ref : String) : Option TaskDependency :=
  let r := pyStrip ref
  match existing_tasks.reverse.find? fun t => t.id == r with
  | some _ => some { task_id := r }
  | none =>
    match existing_tasks.reverse.find? fun t => t.name == r with
    | some t => some { task_id := t.id }
    | none => none

/-- `resolve_task_dependencies`: each template becomes `to_task` (with its
freshly generated identifier, supplied positionally) carrying the resolved
dependency list. -/
def resolveTaskDependencies (pairs : List (TaskTemplate × String))
    (existing_tasks : List Task) : List Task :=
  pairs.map fun (p : TaskTemplate × String) =>
    { p.1.toTask p.2 with
        dependencies := p.1.dependencies.filterMap (resolveRef existing_tasks) }

/-- Dependency graph of `detect_circular_dependencies`: one edge
`dep → template.name` per unresolved reference string. -/
def templateGraph (templates : List TaskTemplate) : List (String × String) :=
  templates.foldl (fun acc tpl =>
    acc ++ tpl.dependencies.map fun dep => (dep, tpl.name)) []

/-- Adjacency lookup `graph[node]`. -/
def neighborsOf (graph : List (String × String)) (node : String) : List String :=
  (graph.filter fun p => p.1 == node).map Prod.snd

mutual

/-- The recursive `has_cycle(node)` of `detect_circular_dependencies`:
rec-stack hit means cycle, visited hit means done, else push the node and
recurse over its neighbors.  Fuel is consumed by every recursive call (node
entry and neighbor-list step alike); since a node is entered at most once,
the total number of calls is bounded by nodes + edges, so any fuel above
that bound makes the exhaustion branch ("no cycle") unreachable. -/
def dfsCycleNode (graph : List (String × String)) (fuel : Nat)
    (visited recStack : List String) (node : String) : Bool × List String :=
  match fuel with
  | 0 => (false, visited)
  | fuel' + 1 =>
    if recStack.contains node then (true, visited)
    else if visited.contains node then (false, visited)
    else dfsCycleNeighbors graph fuel' (visited ++ [node]) (recStack ++ [node])
      (neighborsOf graph node)

/-- The `for neighbor in graph[node]` loop with early `return True`,
threading the visited set. -/
def dfsCycleNeighbors (graph : List (String × String)) (fuel : Nat)
    (visited recStack : List String) (ns : List String) : Bool × List String :=
  match fuel with
  | 0 => (false, visited)
  | fuel' + 1 =>
    match ns with
    | [] => (false, visited)
    | n :: rest =>
      let r := dfsCycleNode graph fuel' visited recStack n
      if r.1 then (true, r.2)
      else dfsCycleNeighbors graph fuel' r.2 recStack rest

end

/-- `detect_circular_dependencies`: run the DFS from every template name not
yet visited (fuel: twice the count of all names and reference strings, plus
one — an upper bound on the call count). -/
def detectCircularDependencies (templates : List TaskTemplate) : Bool :=
  let graph := templateGraph templates
  let fuel := 2 * (templates.map TaskTemplate.name ++
    templates.foldl (fun (acc : List String) tpl => acc ++ tpl.dependencies) []).length + 1
  (templates.foldl (fun (acc : Bool × List String) tpl =>
      if acc.1 then acc
      else if acc.2.contains tpl.name then acc
      else dfsCycleNode graph fuel acc.2 [] tpl.name)
    (false, [])).1

end DependencyResolver

/-! ## Splitting engine (`src/services/task_splitting_service.py`,
`TaskSplittingService`) -/

namespace TaskSplittingService

/-- Modelled from the spec: `TaskService.get_all_tasks` is called by the
splitting engine but is not defined in the repository sources (only the unit
tests' mock provides it); per §6 `RecordStore.listAll` it returns every
stored task. -/
def getAllTasks (s : SysState) : List Task := s.table.rows

/-- Modelled from the spec: `TaskService.clear_all_tasks` is called by the
splitting engine but is not defined in the repository sources (only the unit
tests' mock provides it); per §4.1 `clear()` / §6 `RecordStore.clear()` it
drops every task from both stores (the semantics of the repository's
`TaskService.clear_all_data`). -/
def clearAllTasks (_s : SysState) : SysState := { table := {}, graph := {} }

/-- `validate_split_request`: granularity, template-set cycle detection, and
per-template itemized errors (message text abbreviated). -/
def validateSplitRequest (req : TaskSplitRequest) : Bool × List String :=
  let granularityErrors :=
    if !req.validateGranularity then
      ["Request violates granularity rules - too many tasks or invalid task constraints"]
    else []
  let cycleErrors :=
    if DependencyResolver.detectCircularDependencies req.task_templates then
      ["Circular dependencies detected in task templates"]
    else []
  let templateErrors :=
    req.task_templates.enum.foldl (fun (acc : List String) it =>
      acc ++
      (if !req.granularity_rules.validateTaskNameLength it.2.name then
        [s!"Task {it.1 + 1}: Name exceeds maximum length"] else []) ++
      (if !req.granularity_rules.validateDescriptionLength it.2.description then
        [s!"Task {it.1 + 1}: Description too short"] else [])) []
  let errors := granularityErrors ++ cycleErrors ++ templateErrors
  (errors.isEmpty, errors)

/-- `_create_tasks_from_templates`: resolve against the given known-task set,
then `create_task` each resolved task in order; an exception propagates with
the state mutated so far. -/
def createTasksFromTemplates (s : SysState)
    (pairs : List (TaskTemplate × String)) (existing_tasks : List Task) :
    Except String (List Task) × SysState :=
  let resolved := DependencyResolver.resolveTaskDependencies pairs existing_tasks
  let step := resolved.foldl
    (fun (acc : Except String (List Task) × SysState) task =>
      match acc with
      | (.error m, st) => (.error m, st)
      | (.ok created, st) =>
        match st.createTask task with
        | (.ok t, st') => (.ok (created ++ [t]), st')
        | (.error m, st') => (.error m, st'))
    (.ok [], s)
  step

/-- Field overwrite performed by `_selective_update_tasks` on a name match. -/
def applyTemplate (existing : Task) (tpl : TaskTemplate) : Task :=
  { existing with
      description := tpl.description,
      implementation_guide := tpl.implementation_guide,
      verification_criteria := some ((tpl.verification_criteria).getD ""),
      notes := tpl.notes,
      priority := tpl.priority,
      complexity := tpl.complexity,
      estimated_hours := tpl.estimated_hours,
      category := tpl.category,
      related_files := tpl.related_files }

/-- `_selective_update_tasks`: templates whose name matches an existing task
update it in place (dependencies re-resolved against the existing set); the
others are created. Returns (created-or-updated tasks, updated count). -/
def selectiveUpdateTasks (s : SysState)
    (pairs : List (TaskTemplate × String)) (existing_tasks : List Task) :
    Except String (List Task × Nat) × SysState :=
  pairs.foldl
    (fun (acc : Except String (List Task × Nat) × SysState) p =>
      match acc with
      | (.error m, st) => (.error m, st)
      | (.ok (created, updated), st) =>
        match existing_tasks.reverse.find? fun t => t.name == p.1.name with
        | some existing =>
          let base := applyTemplate existing p.1
          let withDeps :=
            match DependencyResolver.resolveTaskDependencies [p] existing_tasks with
            | resolvedTask :: _ => { base with dependencies := resolvedTask.dependencies }
            | [] => base
          match st.updateTask withDeps with
          | (.ok t, st') => (.ok (created ++ [t], updated + 1), st')
          | (.error m, st') => (.error m, st')
        | none =>
          match DependencyResolver.resolveTaskDependencies [p] existing_tasks with
          | resolvedTask :: _ =>
            match st.createTask resolvedTask with
            | (.ok t, st') => (.ok (created ++ [t], updated), st')
            | (.error m, st') => (.error m, st')
          | [] => (.ok (created, updated), st))
    (.ok ([], 0), s)

/-- `UpdateMode.OVERWRITE` deletion sweep: delete every non-COMPLETED task,
counting removals. -/
def overwriteDeletions (s : SysState) (existing_tasks : List Task) :
    Nat × SysState :=
  existing_tasks.foldl
    (fun (acc : Nat × SysState) task =>
      if decide (task.status ≠ .COMPLETED) then
        let (_, st') := acc.2.deleteTask task.id
        (acc.1 + 1, st')
      else acc)
    (0, s)

/-- `split_tasks`: validate, snapshot the before-count, apply the update
mode, and build the operation record; any exception surfaces as an
unsuccessful result (with the state it left behind). Fresh `uuid4` values
are supplied positionally, one per template. -/
def splitTasks (s : SysState) (req : TaskSplitRequest) (freshIds : List String) :
    SplitResult × SysState :=
  let (isValid, validationErrors) := validateSplitRequest req
  if !isValid then
    ({ success := false, created_tasks := [], operation := none,
       message := "Validation failed", errors := validationErrors }, s)
  else
    let existing_tasks := getAllTasks s
    let tasks_before_count := existing_tasks.length
    let pairs := req.task_templates.zip freshIds
    let outcome : Except String (List Task × Nat × Nat) × SysState :=
      match req.update_mode with
      | .CLEAR_ALL_TASKS =>
        let s₁ := clearAllTasks s
        match createTasksFromTemplates s₁ pairs [] with
        | (.ok created, st) => (.ok (created, 0, tasks_before_count), st)
        | (.error m, st) => (.error m, st)
      | .APPEND =>
        match createTasksFromTemplates s pairs existing_tasks with
        | (.ok created, st) => (.ok (created, 0, 0), st)
        | (.error m, st) => (.error m, st)
      | .SELECTIVE =>
        match selectiveUpdateTasks s pairs existing_tasks with
        | (.ok (created, updated), st) => (.ok (created, updated, 0), st)
        | (.error m, st) => (.error m, st)
      | .OVERWRITE =>
        let completed_tasks := existing_tasks.filter fun t =>
          decide (t.status = .COMPLETED)
        let (removed, s₁) := overwriteDeletions s existing_tasks
        match createTasksFromTemplates s₁ pairs completed_tasks with
        | (.ok created, st) => (.ok (created, 0, removed), st)
        | (.error m, st) => (.error m, st)
    match outcome with
    | (.error m, st) =>
      ({ success := false, created_tasks := [], operation := none,
         message := s!"Split operation failed: {m}", errors := [m] }, st)
    | (.ok (created_tasks, tasks_updated, tasks_removed), st) =>
      let tasks_after_count := (getAllTasks st).length
      ({ success := true,
         created_tasks := created_tasks,
         operation := some
           { operation_type := "split_tasks",
             update_mode := req.update_mode,
             tasks_before_count := tasks_before_count,
             tasks_after_count := tasks_after_count,
             tasks_added := created_tasks.length,
             tasks_updated := tasks_updated,
             tasks_removed := tasks_removed },
         message := "Successfully processed tasks",
         errors := [] }, st)

end TaskSplittingService

/-! ## Lemmas about the graph store -/

namespace GraphState

theorem insertEdge_nodes (g : GraphState) (e : GraphEdge) :
    (g.insertEdge e).nodes = g.nodes := by
  unfold insertEdge; split <;> rfl

theorem insertEdge_nodeIds (g : GraphState) (e : GraphEdge) :
    (g.insertEdge e).nodeIds = g.nodeIds := by
  unfold nodeIds; rw [insertEdge_nodes]

theorem hasCycleB_congr {g h : GraphState} (hn : g.nodeIds = h.nodeIds)
    (he : g.edgePairs = h.edgePairs) : g.hasCycleB = h.hasCycleB := by
  unfold hasCycleB kahnList; rw [hn, he]

theorem insertEdge_edgePairs_of_present {g : GraphState} {e : GraphEdge}
    (h : g.hasEdgePair e.from_id e.to_id = true) :
    (g.insertEdge e).edgePairs = g.edgePairs := by
  unfold insertEdge
  rw [if_pos h]
  unfold edgePairs
  simp only [List.map_map]
  refine List.map_congr_left ?_
  intro x _
  by_cases hx : (x.from_id == e.from_id && x.to_id == e.to_id) = true
  · have h1 : x.from_id = e.from_id := by
      have := (Bool.and_eq_true _ _).mp hx |>.1; exact eq_of_beq this
    have h2 : x.to_id = e.to_id := by
      have := (Bool.and_eq_true _ _).mp hx |>.2; exact eq_of_beq this
    simp [hx, h1, h2]
  · have hprop : ¬(x.from_id = e.from_id ∧ x.to_id = e.to_id) := by
      intro hand
      exact hx (by simp [hand.1, hand.2])
    simp [hx, hprop]

theorem erasePair_of_absent {g : GraphState} {u v : String}
    (h : g.hasEdgePair u v = false) : g.erasePair u v = g := by
  unfold erasePair
  have : g.edges.filter (fun x => !(x.from_id == u && x.to_id == v)) = g.edges := by
    apply List.filter_eq_self.mpr
    intro x hx
    have hfalse : (x.from_id == u && x.to_id == v) = false := by
      by_contra hc
      have : g.hasEdgePair u v = true := by
        unfold hasEdgePair
        exact List.any_eq_true.mpr ⟨x, hx, Bool.of_not_eq_false hc⟩
      simp [this] at h
    simp [hfalse]
  rw [this]

/-- Single `add_edge` step: from an acyclic state, the result is acyclic, and
a rejected call returns the state unchanged. -/
theorem addEdge_step {g : GraphState} (e : GraphEdge) (hg : g.hasCycleB = false) :
    (g.addEdge e).2.hasCycleB = false ∧ ((g.addEdge e).1 = false → (g.addEdge e).2 = g) := by
  unfold addEdge
  by_cases hend : (!g.hasNode e.from_id || !g.hasNode e.to_id) = true
  · simp [hend, hg]
  · rw [if_neg hend]
    by_cases hcyc : g.wouldCreateCycle e = true
    · rw [if_pos hcyc]
      have hpair : g.hasEdgePair e.from_id e.to_id = false := by
        by_contra hc
        have hp : g.hasEdgePair e.from_id e.to_id = true := Bool.of_not_eq_false hc
        have : g.wouldCreateCycle e = g.hasCycleB := by
          unfold wouldCreateCycle
          exact hasCycleB_congr (insertEdge_nodeIds g e)
            (insertEdge_edgePairs_of_present hp)
        rw [this, hg] at hcyc
        exact Bool.false_ne_true hcyc
      have herase := erasePair_of_absent hpair
      exact ⟨by simp [herase, hg], by intro _; simp [herase]⟩
    · rw [if_neg hcyc]
      have : g.wouldCreateCycle e = false := Bool.of_not_eq_true hcyc
      unfold wouldCreateCycle at this
      exact ⟨this, by intro h; exact absurd h (by simp)⟩

/-- Folding a whole sequence of `add_edge` calls preserves acyclicity. -/
theorem addEdge_fold {g : GraphState} (es : List GraphEdge) (hg : g.hasCycleB = false) :
    (es.foldl (fun h e => (h.addEdge e).2) g).hasCycleB = false := by
  induction es generalizing g with
  | nil => exact hg
  | cons e rest ih => exact ih ((addEdge_step e hg).1)

/-! ### Kahn peeling: ordering, distinctness, completeness -/

theorem kahnAux_subset (edges : List (String × String)) :
    ∀ fuel remaining, ∀ x ∈ kahnAux edges fuel remaining, x ∈ remaining := by
  intro fuel
  induction fuel with
  | zero => intro remaining x hx; simp [kahnAux] at hx
  | succ n ih =>
    intro remaining x hx
    unfold kahnAux at hx
    by_cases hemp : (remaining.filter (noIncoming edges remaining)).isEmpty
    · simp [hemp] at hx
    · rw [if_neg hemp] at hx
      rcases List.mem_append.mp hx with hl | hr
      · exact (List.mem_filter.mp hl).1
      · exact (List.mem_filter.mp (ih _ x hr)).1

theorem kahnAux_nodup (edges : List (String × String)) :
    ∀ fuel remaining, remaining.Nodup → (kahnAux edges fuel remaining).Nodup := by
  intro fuel
  induction fuel with
  | zero => intro remaining _; simp [kahnAux]
  | succ n ih =>
    intro remaining hnd
    unfold kahnAux
    by_cases hemp : (remaining.filter (noIncoming edges remaining)).isEmpty
    · simp [hemp]
    · rw [if_neg hemp]
      apply List.Nodup.append (hnd.filter _) (ih _ (hnd.filter _))
      intro a ha hrec
      have ha' := kahnAux_subset edges n _ a hrec
      have hcon := (List.mem_filter.mp ha').2
      rw [Bool.not_eq_eq_eq_not, Bool.not_true, List.contains_eq_any_beq] at hcon
      have : a ∈ remaining.filter (noIncoming edges remaining) → False := by
        intro hmem
        have : (remaining.filter (noIncoming edges remaining)).any (a == ·) = true :=
          List.any_eq_true.mpr ⟨a, hmem, by simp⟩
        simp [this] at hcon
      exact this ha

theorem kahnAux_before {edges : List (String × String)} {u v : String}
    (he : (u, v) ∈ edges) :
    ∀ fuel remaining, u ∈ remaining → v ∈ kahnAux edges fuel remaining →
      Before (kahnAux edges fuel remaining) u v := by
  intro fuel
  induction fuel with
  | zero => intro remaining _ hv; simp [kahnAux] at hv
  | succ n ih =>
    intro remaining hu hv
    unfold kahnAux at hv ⊢
    by_cases hemp : (remaining.filter (noIncoming edges remaining)).isEmpty
    · simp [hemp] at hv
    · rw [if_neg hemp] at hv ⊢
      have hvnotlayer : v ∉ remaining.filter (noIncoming edges remaining) := by
        intro hvl
        have hni := (List.mem_filter.mp hvl).2
        have := List.all_eq_true.mp hni (u, v) he
        simp at this
        exact absurd hu this
      have hvrec : v ∈ kahnAux edges n
          (remaining.filter fun w => !((remaining.filter (noIncoming edges remaining)).contains w)) := by
        rcases List.mem_append.mp hv with hl | hr
        · exact absurd hl hvnotlayer
        · exact hr
      by_cases hul : u ∈ remaining.filter (noIncoming edges remaining)
      · exact Before.append_left hul hvrec
      · have hu' : u ∈ remaining.filter
            fun w => !((remaining.filter (noIncoming edges remaining)).contains w) := by
          refine List.mem_filter.mpr ⟨hu, ?_⟩
          rw [Bool.not_eq_eq_eq_not, Bool.not_true, List.contains_eq_any_beq]
          apply List.any_eq_false.mpr
          intro b hb
          by_cases hab : u = b
          · exact absurd (hab ▸ hb) hul
          · simp [hab]
        exact Before.append_right _ (ih _ hu' hvrec)

theorem kahnList_complete {g : GraphState} (hnd : g.nodeIds.Nodup)
    (hac : g.hasCycleB = false) : ∀ x ∈ g.nodeIds, x ∈ g.kahnList := by
  have hlen : g.kahnList.length = g.nodeIds.length := by
    unfold hasCycleB at hac
    simpa using hac
  have hsub : g.kahnList ⊆ g.nodeIds := fun x hx =>
    kahnAux_subset g.edgePairs _ _ x hx
  have hknd : g.kahnList.Nodup := kahnAux_nodup g.edgePairs _ _ hnd
  have hsp : List.Subperm g.kahnList g.nodeIds := List.subperm_of_subset hknd hsub
  have hperm : List.Perm g.kahnList g.nodeIds :=
    hsp.perm_of_length_le (le_of_eq hlen.symm)
  intro x hx
  exact hperm.mem_iff.mpr hx

end GraphState

/-! ## Lemmas about the coordination layer -/

namespace SysState

/-- `_add_task_dependencies` never touches the record store. -/
theorem addTaskDependencies_table (s : SysState) (i : String)
    (ds : List TaskDependency) :
    (s.addTaskDependencies i ds).2.table = s.table := by
  induction ds generalizing s with
  | nil => rfl
  | cons d rest ih =>
    unfold addTaskDependencies
    cases hfind : s.table.getById d.task_id with
    | none => rfl
    | some t =>
      simp only
      by_cases hadd : (s.graph.addEdge { from_id := i, to_id := d.task_id }).1 = true
      · rw [if_pos hadd]
        exact ih _
      · rw [if_neg hadd]

/-- `add_edge` never changes the node set. -/
theorem addEdge_nodes (g : GraphState) (e : GraphEdge) :
    (g.addEdge e).2.nodes = g.nodes := by
  unfold GraphState.addEdge
  split
  · rfl
  · split
    · rfl
    · exact GraphState.insertEdge_nodes g e

/-- `_add_task_dependencies` never changes the graph node set. -/
theorem addTaskDependencies_nodes (s : SysState) (i : String)
    (ds : List TaskDependency) :
    (s.addTaskDependencies i ds).2.graph.nodes = s.graph.nodes := by
  induction ds generalizing s with
  | nil => rfl
  | cons d rest ih =>
    unfold addTaskDependencies
    cases hfind : s.table.getById d.task_id with
    | none => rfl
    | some t =>
      simp only
      by_cases hadd : (s.graph.addEdge { from_id := i, to_id := d.task_id }).1 = true
      · rw [if_pos hadd]
        rw [ih]
        exact addEdge_nodes _ _
      · rw [if_neg hadd]
        exact addEdge_nodes _ _

/-- If some declared dependency has no record, `_add_task_dependencies`
raises (either the not-found error when it is reached, or an earlier
rejection). -/
theorem addTaskDependencies_error (s : SysState) (i : String)
    (ds : List TaskDependency) (d : TaskDependency) (hd : d ∈ ds)
    (hmiss : s.table.getById d.task_id = none) :
    ∃ m, (s.addTaskDependencies i ds).1 = .error m := by
  induction ds generalizing s with
  | nil => cases hd
  | cons d₀ rest ih =>
    unfold addTaskDependencies
    cases hfind : s.table.getById d₀.task_id with
    | none => exact ⟨_, rfl⟩
    | some t =>
      simp only
      by_cases hadd : (s.graph.addEdge { from_id := i, to_id := d₀.task_id }).1 = true
      · rw [if_pos hadd]
        rcases List.mem_cons.mp hd with rfl | hdrest
        · rw [hfind] at hmiss; cases hmiss
        · have hmiss' :
            ({ s with graph := (s.graph.addEdge { from_id := i, to_id := d₀.task_id }).2 } :
              SysState).table.getById d.task_id = none := hmiss
          exact ih _ hdrest hmiss'
      · rw [if_neg hadd]
        exact ⟨_, rfl⟩

/-- A record lookup in an extended table: absent in the prefix. -/
theorem getById_append_of_absent (rows : List Task) (t : Task)
    (h : (TableState.mk rows).existsId t.id = false) :
    (TableState.mk (rows ++ [t])).getById t.id = some t := by
  unfold TableState.getById
  rw [List.find?_append]
  have : rows.find? (fun r => r.id == t.id) = none := by
    apply List.find?_eq_none.mpr
    intro x hx
    have : (x.id == t.id) = false := by
      by_contra hc
      have hb : (x.id == t.id) = true := Bool.of_not_eq_false hc
      have : (TableState.mk rows).existsId t.id = true :=
        List.any_eq_true.mpr ⟨x, hx, hb⟩
      simp [this] at h
    simp [this]
  rw [this]
  simp [TableState.getById]

/-- `create_task` on a task with no declared dependencies and a fresh
identifier succeeds and appends the record and the node. -/
theorem createTask_fresh (s : SysState) (t : Task)
    (h1 : s.table.existsId t.id = false) (h2 : s.graph.hasNode t.id = false)
    (h3 : t.dependencies = []) :
    s.createTask t =
      (.ok t, { table := ⟨s.table.rows ++ [t]⟩,
                graph := { nodes := s.graph.nodes ++ [graphNodeOf t],
                           edges := s.graph.edges } }) := by
  unfold createTask TableState.create GraphState.addNode
  simp [h1, h2, h3, addTaskDependencies, graphNodeOf]

/-- After a successful `create_task` the stored record is the input task
itself: the table part of the final state is the inserted row list. -/
theorem createTask_table_of_ok (s : SysState) (t : Task) (r : Task)
    (h : (s.createTask t).1 = .ok r) :
    (s.createTask t).2.table = ⟨s.table.rows ++ [t]⟩ := by
  unfold createTask at h ⊢
  cases hc : s.table.create t with
  | error m =>
    rw [hc] at h
    simp at h
  | ok table' =>
    rw [hc] at h
    have htab : table' = ⟨s.table.rows ++ [t]⟩ := by
      unfold TableState.create at hc
      split at hc
      · cases hc
      · injection hc with hc'
        exact hc'.symm
    cases hnode : s.graph.addNode (graphNodeOf t) with
    | mk nodeCreated g' =>
      rw [hnode] at h
      cases nodeCreated with
      | false => simp at h
      | true =>
        subst htab
        dsimp only at h ⊢
        cases hfold : ({ table := ⟨s.table.rows ++ [t]⟩, graph := g' } :
            SysState).addTaskDependencies t.id t.dependencies with
        | mk res st =>
          have hst : st.table = ⟨s.table.rows ++ [t]⟩ := by
            have htc := addTaskDependencies_table
              { table := ⟨s.table.rows ++ [t]⟩, graph := g' } t.id t.dependencies
            rw [hfold] at htc
            exact htc
          cases res with
          | ok u => simp [hst]
          | error m => simp [hst]

/-- Looking up an identifier different from the appended row falls through to
the prefix. -/
theorem getById_append_other (rows : List Task) (t : Task) (i : String)
    (hne : i ≠ t.id) :
    (TableState.mk (rows ++ [t])).getById i = (TableState.mk rows).getById i := by
  unfold TableState.getById
  rw [List.find?_append]
  have hone : ([t].find? fun r => r.id == i) = none := by
    have hbeq : (t.id == i) = false := by
      by_contra hc
      exact hne (eq_of_beq (Bool.of_not_eq_false hc)).symm
    simp [List.find?, hbeq]
  rw [hone]
  cases rows.find? (fun r => r.id == i) <;> rfl

/-- Replacing the matching row makes the lookup return the replacement. -/
theorem getById_map_replace (rows : List Task) (t : Task)
    (hex : rows.any (fun r => r.id == t.id) = true) :
    (TableState.mk (rows.map fun r => if r.id == t.id then t else r)).getById t.id
      = some t := by
  induction rows with
  | nil => simp at hex
  | cons r rest ih =>
    by_cases hr : (r.id == t.id) = true
    · unfold TableState.getById
      simp only [List.map_cons, hr, if_pos]
      simp [List.find?]
    · have hr' : (r.id == t.id) = false := Bool.of_not_eq_true hr
      have hex' : rest.any (fun x => x.id == t.id) = true := by
        rcases List.any_eq_true.mp hex with ⟨x, hx, hb⟩
        rcases List.mem_cons.mp hx with rfl | hxr
        · rw [hb] at hr'; cases hr'
        · exact List.any_eq_true.mpr ⟨x, hxr, hb⟩
      have hif : (if r.id == t.id then t else r) = r := by simp [hr']
      unfold TableState.getById at ih ⊢
      simp only [List.map_cons, hif]
      rw [List.find?]
      rw [hr']
      exact ih hex'

/-- If `create_task` reports success, the identifier was fresh in the table. -/
theorem createTask_ok_fresh (s : SysState) (t : Task) (r : Task)
    (h : (s.createTask t).1 = .ok r) : s.table.existsId t.id = false := by
  by_contra hc
  have hex : s.table.existsId t.id = true := Bool.of_not_eq_false hc
  unfold createTask at h
  unfold TableState.create at h
  rw [if_pos hex] at h
  simp at h

/-- `create_task` with an unresolved dependency (and an otherwise fresh,
self-reference-free task): the call errors, yet the task record and graph
node are both present afterwards. -/
theorem createTask_unresolved (s : SysState) (t : Task) (d : TaskDependency)
    (h1 : s.table.existsId t.id = false) (h2 : s.graph.hasNode t.id = false)
    (hd : d ∈ t.dependencies) (hmiss : s.table.getById d.task_id = none)
    (hne : d.task_id ≠ t.id) :
    (∃ m, (s.createTask t).1 = .error m) ∧
    (s.createTask t).2.getTask t.id = some t ∧
    (s.createTask t).2.graph.hasNode t.id = true := by
  have hc : s.table.create t = .ok ⟨s.table.rows ++ [t]⟩ := by
    unfold TableState.create
    rw [if_neg (by simp [h1])]
  have hnode : s.graph.addNode (graphNodeOf t) =
      (true, { s.graph with nodes := s.graph.nodes ++ [graphNodeOf t] }) := by
    unfold GraphState.addNode
    rw [if_neg (by simp [graphNodeOf, h2])]
  have hmiss' : (TableState.mk (s.table.rows ++ [t])).getById d.task_id = none := by
    rw [getById_append_other _ _ _ hne]
    exact hmiss
  unfold createTask
  rw [hc, hnode]
  dsimp only
  rw [if_neg (by simp : ¬ ((!true) = true))]
  set s₁ : SysState :=
    { table := ⟨s.table.rows ++ [t]⟩,
      graph := { s.graph with nodes := s.graph.nodes ++ [graphNodeOf t] } } with hs₁
  obtain ⟨m, hm⟩ := addTaskDependencies_error s₁ t.id t.dependencies d hd hmiss'
  cases hfold : s₁.addTaskDependencies t.id t.dependencies with
  | mk res st =>
    have htable : st.table = s₁.table := by
      have htc := addTaskDependencies_table s₁ t.id t.dependencies
      rw [hfold] at htc
      exact htc
    have hnodes : st.graph.nodes = s₁.graph.nodes := by
      have htc := addTaskDependencies_nodes s₁ t.id t.dependencies
      rw [hfold] at htc
      exact htc
    rw [hfold] at hm
    cases res with
    | ok u => simp at hm
    | error m' =>
      refine ⟨⟨m', by simp⟩, ?_, ?_⟩
      · show st.getTask t.id = some t
        unfold getTask
        rw [htable]
        exact getById_append_of_absent s.table.rows t h1
      · show st.graph.hasNode t.id = true
        unfold GraphState.hasNode
        rw [hnodes]
        apply List.any_eq_true.mpr
        exact ⟨graphNodeOf t, by simp, by simp [graphNodeOf]⟩

/-- The table component of the state `update_task` leaves behind: the row
list with the matching record replaced (requires the identifier to exist, as
`update` raises otherwise). -/
theorem updateTask_table (s : SysState) (t : Task)
    (hex : s.table.existsId t.id = true) :
    (s.updateTask t).2.table =
      ⟨s.table.rows.map fun r => if r.id == t.id then t else r⟩ := by
  unfold updateTask
  cases hu : s.table.update t with
  | error m =>
    unfold TableState.update at hu
    rw [if_pos hex] at hu
    cases hu
  | ok table' =>
    have htab : table' = ⟨s.table.rows.map fun r => if r.id == t.id then t else r⟩ := by
      unfold TableState.update at hu
      rw [if_pos hex] at hu
      injection hu with hu'
      exact hu'.symm
    subst htab
    cases hrm : s.graph.removeNode t.id with
    | mk b₁ g₁ =>
      dsimp only
      cases han : g₁.addNode (graphNodeOf t) with
      | mk b₂ g₂ =>
        dsimp only
        cases hfold : ({ table := ⟨s.table.rows.map fun r => if r.id == t.id then t else r⟩, graph := g₂ } :
            SysState).addTaskDependencies t.id t.dependencies with
        | mk res st =>
          have htable := addTaskDependencies_table
            ({ table := ⟨s.table.rows.map fun r => if r.id == t.id then t else r⟩, graph := g₂ } :
              SysState) t.id t.dependencies
          rw [hfold] at htable
          cases res with
          | ok u => exact htable
          | error m => exact htable

/-- `update_task` on an existing identifier: the record read back afterwards
is the updated task (this holds even when a later dependency step raises,
because the table write happens first). -/
theorem updateTask_getTask (s : SysState) (t : Task)
    (hex : s.table.existsId t.id = true) :
    (s.updateTask t).2.getTask t.id = some t := by
  unfold getTask
  rw [updateTask_table s t hex]
  exact getById_map_replace s.table.rows t hex

end SysState

/-! ## Concrete fixtures used by witnesses and counterexamples -/

/-- A display node for a bare identifier. -/
def fixNode (n : String) : GraphNode :=
  { id := n,
    data := { name := n, status := .PENDING, priority := .P2,
              complexity := none, category := none } }

/-- The diamond of §8: edges C→D, B→D, A→B, A→C (A depends on B and C, which
both depend on D). -/
def fixDiamond : GraphState :=
  { nodes := [fixNode "A", fixNode "B", fixNode "C", fixNode "D"],
    edges := [{ from_id := "C", to_id := "D" }, { from_id := "B", to_id := "D" },
              { from_id := "A", to_id := "B" }, { from_id := "A", to_id := "C" }] }

/-- The edge D→A that would close the diamond into a cycle. -/
def fixEdgeDA : GraphEdge := { from_id := "D", to_id := "A" }

/-- A minimal record for identifier `i` named `n`. -/
def fixTask (i n : String) : Task :=
  { id := i, name := n, description := "a description long enough",
    implementation_guide := "a guide long enough" }

/-- A task that declares a dependency on an identifier with no record. -/
def fixTaskBadDep : Task :=
  { fixTask "t1" "A" with dependencies := [{ task_id := "missing" }] }

/-- Record `b` with no dependencies. -/
def fixTaskB : Task := fixTask "b" "B"

/-- Record `a`, declaring a dependency on `b`. -/
def fixTaskA : Task :=
  { fixTask "a" "A" with dependencies := [{ task_id := "b" }] }

/-- The coordinator state after creating `b` then `a` (edge a→b present). -/
def fixStateAB : SysState :=
  (((({} : SysState).createTask fixTaskB).2).createTask fixTaskA).2

/-! ## Claim theorems -/

/-- C1: for every sequence of `add_edge` calls on an acyclic
`DependencyGraphStore` state, the graph stays acyclic after each call
(`has_cycle()` returns false), and a rejected `add_edge` — absent endpoint or
edge that would close a cycle — returns `false` and leaves the node set and
edge set exactly as they were (no partial state). -/
theorem C1_addEdge_acyclicity (g : GraphState) (e : GraphEdge)
    (es : List GraphEdge) (hg : g.hasCycleB = false) :
    (g.addEdge e).2.hasCycleB = false ∧
    ((g.addEdge e).1 = false → (g.addEdge e).2 = g) ∧
    (g.hasNode e.from_id = false ∨ g.hasNode e.to_id = false →
      (g.addEdge e).1 = false) ∧
    (g.wouldCreateCycle e = true → (g.addEdge e).1 = false) ∧
    (es.foldl (fun h x => (h.addEdge x).2) g).hasCycleB = false := by
  refine ⟨(GraphState.addEdge_step e hg).1, (GraphState.addEdge_step e hg).2, ?_, ?_,
    GraphState.addEdge_fold es hg⟩
  · intro habs
    unfold GraphState.addEdge
    rcases habs with h | h <;> rw [if_pos (by simp [h])]
  · intro hcyc
    unfold GraphState.addEdge
    by_cases hend : (!g.hasNode e.from_id || !g.hasNode e.to_id) = true
    · rw [if_pos hend]
    · rw [if_neg hend, if_pos hcyc]

/-- Witness for C1: on the concrete diamond, the cycle-closing edge D→A is
rejected with the state intact and the graph stays acyclic. -/
theorem C1_witness :
    fixDiamond.hasCycleB = false ∧
    ((fixDiamond.addEdge fixEdgeDA).2.hasCycleB = false ∧
     ((fixDiamond.addEdge fixEdgeDA).1 = false →
       (fixDiamond.addEdge fixEdgeDA).2 = fixDiamond) ∧
     (fixDiamond.hasNode fixEdgeDA.from_id = false ∨
       fixDiamond.hasNode fixEdgeDA.to_id = false →
       (fixDiamond.addEdge fixEdgeDA).1 = false) ∧
     (fixDiamond.wouldCreateCycle fixEdgeDA = true →
       (fixDiamond.addEdge fixEdgeDA).1 = false) ∧
     (([fixEdgeDA] : List GraphEdge).foldl
       (fun h x => (h.addEdge x).2) fixDiamond).hasCycleB = false) :=
  ⟨by decide, C1_addEdge_acyclicity fixDiamond fixEdgeDA [fixEdgeDA] (by decide)⟩

/-- C2 counterexample: creating a task whose dependency list names a missing
record raises, yet the task IS afterwards present in the record store and as
a graph node — the claim's "present neither in the record store nor as a node
in the graph store" is false on this input. -/
theorem C2_counterexample :
    ((({} : SysState).createTask fixTaskBadDep).1.isOk = false) ∧
    ((({} : SysState).createTask fixTaskBadDep).2.getTask "t1").isSome = true ∧
    ((({} : SysState).createTask fixTaskBadDep).2.graph.hasNode "t1" = true) := by
  decide

/-- C2 (amended): when a declared dependency (distinct from the task itself)
has no record, `create_task` on a fresh task fails with an error — the
unresolved-dependency error when the missing dependency is the first failure —
but the record-store write and graph node are NOT rolled back: the task stays
reachable in both stores. -/
theorem C2_create_unresolved (s : SysState) (t : Task) (d : TaskDependency)
    (h1 : s.table.existsId t.id = false) (h2 : s.graph.hasNode t.id = false)
    (hd : d ∈ t.dependencies) (hmiss : s.table.getById d.task_id = none)
    (hne : d.task_id ≠ t.id) :
    (∃ m, (s.createTask t).1 = .error m) ∧
    (s.createTask t).2.getTask t.id = some t ∧
    (s.createTask t).2.graph.hasNode t.id = true :=
  SysState.createTask_unresolved s t d h1 h2 hd hmiss hne

/-- Witness for C2 (amended), at the concrete counterexample input. -/
theorem C2_witness :
    (({} : SysState).table.existsId "t1" = false ∧
     ({} : SysState).graph.hasNode "t1" = false ∧
     ({ task_id := "missing" } : TaskDependency) ∈ fixTaskBadDep.dependencies ∧
     ({} : SysState).table.getById "missing" = none ∧
     "missing" ≠ "t1") ∧
    ((∃ m, (({} : SysState).createTask fixTaskBadDep).1 = .error m) ∧
     (({} : SysState).createTask fixTaskBadDep).2.getTask "t1" = some fixTaskBadDep ∧
     (({} : SysState).createTask fixTaskBadDep).2.graph.hasNode "t1" = true) :=
  ⟨⟨rfl, rfl, by decide, rfl, by decide⟩,
    C2_create_unresolved {} fixTaskBadDep { task_id := "missing" }
      rfl rfl (by decide) rfl (by decide)⟩

/-- C3 (code bug): `update_task` replaces the node via `remove_node` +
`add_node`, and `remove_node` cascades removal of every edge touching the
node; the incoming edge from the dependent `a` onto `b` is lost, while the
record of `a` still lists the dependency — the record/graph bijection the
coordinator is responsible for is broken at this concrete input. -/
theorem C3_update_drops_dependent_edges :
    fixStateAB.graph.edges.length = 1 ∧
    (fixStateAB.updateTask fixTaskB).1.isOk = true ∧
    (fixStateAB.updateTask fixTaskB).2.graph.edges = [] ∧
    (fixStateAB.updateTask fixTaskB).2.getTask "a" = some fixTaskA := by
  decide

/-- Looking up a found record returns a record carrying the queried
identifier. -/
theorem TableState.getById_id {tbl : TableState} {i : String} {t : Task}
    (h : tbl.getById i = some t) : t.id = i := by
  unfold TableState.getById at h
  have hp := List.find?_some h
  exact eq_of_beq (by simpa using hp)

/-- Mapping `Task.id` over the record-resolved list recovers the identifier
list filtered to those with a record. -/
theorem filterMap_getById_map_id (tbl : TableState) (l : List String) :
    (l.filterMap tbl.getById).map Task.id =
      l.filter fun i => (tbl.getById i).isSome := by
  induction l with
  | nil => rfl
  | cons i rest ih =>
    cases h : tbl.getById i with
    | none => simp [h, ih]
    | some t =>
      simp [h, ih, TableState.getById_id h]

/-- C4: in every acyclic graph state, for every edge u→v (u depends on v)
with both endpoints present, the raw `topological_sort()` lists u before v
(dependents first); `get_execution_order()`, its reversal resolved to
records, lists the task for v before the task for u (dependency before
dependent), identifiers without a record being silently skipped. -/
theorem C4_topological_order (s : SysState) (u v : String) (tu tv : Task)
    (hnd : s.graph.nodeIds.Nodup)
    (he : (u, v) ∈ s.graph.edgePairs)
    (hu : u ∈ s.graph.nodeIds) (hv : v ∈ s.graph.nodeIds)
    (hac : s.graph.hasCycleB = false)
    (htu : s.table.getById u = some tu) (htv : s.table.getById v = some tv) :
    s.graph.topologicalSort = .ok s.graph.kahnList ∧
    Before s.graph.kahnList u v ∧
    s.getExecutionOrder = .ok (s.graph.kahnList.reverse.filterMap s.table.getById) ∧
    Before ((s.graph.kahnList.reverse.filterMap s.table.getById).map Task.id) v u := by
  have hts : s.graph.topologicalSort = .ok s.graph.kahnList := by
    unfold GraphState.topologicalSort
    rw [hac]
    rfl
  have hvk : v ∈ s.graph.kahnList := GraphState.kahnList_complete hnd hac v hv
  have hbefore : Before s.graph.kahnList u v :=
    GraphState.kahnAux_before he _ s.graph.nodeIds hu hvk
  refine ⟨hts, hbefore, ?_, ?_⟩
  · unfold SysState.getExecutionOrder
    rw [hts]
  · rw [filterMap_getById_map_id]
    exact (hbefore.reverse).filter _ (by simp [htv]) (by simp [htu])

/-- Record store matching the diamond fixture. -/
def fixDiamondTable : TableState :=
  ⟨[fixTask "A" "A", fixTask "B" "B", fixTask "C" "C", fixTask "D" "D"]⟩

/-- Coordinator state over the diamond. -/
def fixDiamondSys : SysState := { table := fixDiamondTable, graph := fixDiamond }

/-- Witness for C4 at the diamond edge A→B. -/
theorem C4_witness :
    (fixDiamondSys.graph.nodeIds.Nodup ∧
     ("A", "B") ∈ fixDiamondSys.graph.edgePairs ∧
     "A" ∈ fixDiamondSys.graph.nodeIds ∧ "B" ∈ fixDiamondSys.graph.nodeIds ∧
     fixDiamondSys.graph.hasCycleB = false ∧
     fixDiamondSys.table.getById "A" = some (fixTask "A" "A") ∧
     fixDiamondSys.table.getById "B" = some (fixTask "B" "B")) ∧
    (fixDiamondSys.graph.topologicalSort = .ok fixDiamondSys.graph.kahnList ∧
     Before fixDiamondSys.graph.kahnList "A" "B" ∧
     fixDiamondSys.getExecutionOrder =
       .ok (fixDiamondSys.graph.kahnList.reverse.filterMap fixDiamondSys.table.getById) ∧
     Before ((fixDiamondSys.graph.kahnList.reverse.filterMap
       fixDiamondSys.table.getById).map Task.id) "B" "A") :=
  ⟨⟨by decide, by decide, by decide, by decide, by decide, by decide, by decide⟩,
    C4_topological_order fixDiamondSys "A" "B" (fixTask "A" "A") (fixTask "B" "B")
      (by decide) (by decide) (by decide) (by decide) (by decide)
      (by decide) (by decide)⟩

/-- The readiness predicate of `get_ready_tasks`, as a proposition. -/
theorem SysState.isReady_iff (s : SysState) (t : Task) :
    s.isReady t = true ↔
      (s.taskDependencyTasks t.id = [] ∨
        ∀ d ∈ s.taskDependencyTasks t.id, d.status = .COMPLETED) := by
  unfold SysState.isReady
  by_cases h : (s.taskDependencyTasks t.id).isEmpty
  · simp [h, List.isEmpty_iff.mp h]
  · rw [if_neg h]
    simp only [List.all_eq_true, decide_eq_true_eq]
    constructor
    · intro hall
      exact Or.inr hall
    · intro hor
      rcases hor with hnil | hall
      · rw [hnil] at h
        simp at h
      · exact hall

/-- C5: a task is in `get_ready_tasks()` iff it is stored (and matches the
status filter when one is supplied) and it has zero dependencies or every
task it depends on has status COMPLETED; with a filter the task set is first
restricted to that status and then the same readiness predicate applies. -/
theorem C5_ready_tasks_iff (s : SysState) (st : TaskStatus) (t : Task) :
    (t ∈ s.getReadyTasks none ↔
      t ∈ s.table.rows ∧
        (s.taskDependencyTasks t.id = [] ∨
          ∀ d ∈ s.taskDependencyTasks t.id, d.status = .COMPLETED)) ∧
    (t ∈ s.getReadyTasks (some st) ↔
      (t ∈ s.table.rows ∧ t.status = st) ∧
        (s.taskDependencyTasks t.id = [] ∨
          ∀ d ∈ s.taskDependencyTasks t.id, d.status = .COMPLETED)) := by
  constructor
  · unfold SysState.getReadyTasks
    rw [List.mem_filter]
    rw [SysState.isReady_iff]
  · unfold SysState.getReadyTasks TableState.queryStatus
    rw [List.mem_filter, List.mem_filter]
    rw [SysState.isReady_iff]
    constructor
    · rintro ⟨⟨hmem, hst⟩, hready⟩
      exact ⟨⟨hmem, by simpa using hst⟩, hready⟩
    · rintro ⟨⟨hmem, hst⟩, hready⟩
      exact ⟨⟨hmem, by simpa using hst⟩, hready⟩

/-- C6: a split request violating a granularity rule — more templates than
`max_subtasks_per_split`, a name over the maximum length, a description under
the minimum, or a cycle detected among the template dependency names — makes
`split_tasks` return an unsuccessful result carrying the itemized validation
error strings, with no mutation of either store. -/
theorem C6_split_validation_rejects (s : SysState) (req : TaskSplitRequest)
    (freshIds : List String)
    (hviol : req.granularity_rules.max_subtasks_per_split < req.task_templates.length
      ∨ (∃ tpl ∈ req.task_templates,
          req.granularity_rules.validateTaskNameLength tpl.name = false)
      ∨ (∃ tpl ∈ req.task_templates,
          req.granularity_rules.validateDescriptionLength tpl.description = false)
      ∨ DependencyResolver.detectCircularDependencies req.task_templates = true) :
    (TaskSplittingService.splitTasks s req freshIds).1.success = false ∧
    (TaskSplittingService.splitTasks s req freshIds).1.errors =
      (TaskSplittingService.validateSplitRequest req).2 ∧
    (TaskSplittingService.validateSplitRequest req).2 ≠ [] ∧
    (TaskSplittingService.splitTasks s req freshIds).2 = s := by
  have hne : (TaskSplittingService.validateSplitRequest req).2 ≠ [] := by
    intro hnil
    unfold TaskSplittingService.validateSplitRequest at hnil
    dsimp only at hnil
    rcases List.append_eq_nil.mp hnil with ⟨hgc, htpl⟩
    rcases List.append_eq_nil.mp hgc with ⟨hgran, hcyc⟩
    have hgran' : req.validateGranularity = true := by
      by_contra hg
      have : (!req.validateGranularity) = true := by
        simp [Bool.of_not_eq_true hg]
      rw [if_pos this] at hgran
      cases hgran
    have hcyc' : DependencyResolver.detectCircularDependencies req.task_templates
        = false := by
      by_contra hg
      rw [if_pos (Bool.of_not_eq_false hg)] at hcyc
      cases hcyc
    unfold TaskSplitRequest.validateGranularity at hgran'
    rcases Bool.and_eq_true _ _ |>.mp hgran' with ⟨hcount, hall⟩
    unfold GranularityRules.validateTaskCount at hcount
    rcases Bool.and_eq_true _ _ |>.mp hcount with ⟨_, hle⟩
    have hle' : req.task_templates.length ≤
        req.granularity_rules.max_subtasks_per_split := of_decide_eq_true hle
    rcases hviol with hbig | ⟨tpl, htm, hname⟩ | ⟨tpl, htm, hdesc⟩ | hc
    · exact absurd hle' (not_le.mpr hbig)
    · have := List.all_eq_true.mp hall tpl htm
      rcases Bool.and_eq_true _ _ |>.mp this with ⟨hn, _⟩
      rw [hname] at hn
      cases hn
    · have := List.all_eq_true.mp hall tpl htm
      rcases Bool.and_eq_true _ _ |>.mp this with ⟨_, hdd⟩
      rw [hdesc] at hdd
      cases hdd
    · rw [hc] at hcyc'
      cases hcyc'
  have hv : TaskSplittingService.validateSplitRequest req =
      (false, (TaskSplittingService.validateSplitRequest req).2) := by
    have h1 : (TaskSplittingService.validateSplitRequest req).1 =
        ((TaskSplittingService.validateSplitRequest req).2).isEmpty := rfl
    have h2 : ((TaskSplittingService.validateSplitRequest req).2).isEmpty = false := by
      cases hE : (TaskSplittingService.validateSplitRequest req).2 with
      | nil => exact absurd hE hne
      | cons a l => rfl
    cases hp : TaskSplittingService.validateSplitRequest req with
    | mk fst snd =>
      rw [hp] at h1 h2
      simp only at h1 h2
      rw [h1, h2]
  refine ⟨?_, ?_, hne, ?_⟩ <;>
    · unfold TaskSplittingService.splitTasks
      rw [hv]
      rfl

/-- A request with two (well-formed) templates against rules capped at one
template per split. -/
def fixReqTooMany : TaskSplitRequest :=
  { update_mode := .APPEND,
    task_templates :=
      [{ name := "T1", description := "long enough description",
         implementation_guide := "guide text long enough" },
       { name := "T2", description := "long enough description",
         implementation_guide := "guide text long enough" }],
    granularity_rules := { max_subtasks_per_split := 1 } }

/-- Witness for C6: the two-template request against a one-template cap is
rejected with errors and an unchanged state. -/
theorem C6_witness :
    (fixReqTooMany.granularity_rules.max_subtasks_per_split <
      fixReqTooMany.task_templates.length) ∧
    ((TaskSplittingService.splitTasks {} fixReqTooMany []).1.success = false ∧
     (TaskSplittingService.splitTasks {} fixReqTooMany []).1.errors =
       (TaskSplittingService.validateSplitRequest fixReqTooMany).2 ∧
     (TaskSplittingService.validateSplitRequest fixReqTooMany).2 ≠ [] ∧
     (TaskSplittingService.splitTasks {} fixReqTooMany []).2 = {}) :=
  ⟨by decide,
    C6_split_validation_rejects {} fixReqTooMany [] (Or.inl (by decide))⟩

/-- C7 counterexample: on the empty graph, `is_reachable` on two absent
identifiers raises `NodeNotFound` instead of returning an empty/absent
result — the claim that none of the four queries raises is false here. -/
theorem C7_counterexample :
    ({} : GraphState).isReachable "a" "b" =
      .error "NodeNotFound: either source or target is not in G" := by
  rfl

/-- C7 (amended): with an absent endpoint, `get_shortest_path`,
`get_ancestors` and `get_descendants` return empty/absent results without
raising, but `is_reachable` raises the NetworkX `NodeNotFound` error. -/
theorem C7_absent_endpoint_queries (g : GraphState) (u : String)
    (hu : g.hasNode u = false) :
    g.getAncestors u = [] ∧ g.getDescendants u = [] ∧
    ∀ v, g.getShortestPath u v = none ∧ g.getShortestPath v u = none ∧
      g.isReachable u v =
        .error "NodeNotFound: either source or target is not in G" ∧
      g.isReachable v u =
        .error "NodeNotFound: either source or target is not in G" := by
  refine ⟨?_, ?_, ?_⟩
  · unfold GraphState.getAncestors
    rw [if_neg (by simp [hu])]
  · unfold GraphState.getDescendants
    rw [if_neg (by simp [hu])]
  · intro v
    refine ⟨?_, ?_, ?_, ?_⟩
    · unfold GraphState.getShortestPath
      rw [if_pos (by simp [hu])]
    · unfold GraphState.getShortestPath
      rw [if_pos (by simp [hu])]
    · unfold GraphState.isReachable
      rw [if_pos (by simp [hu])]
    · unfold GraphState.isReachable
      rw [if_pos (by simp [hu])]

/-- Witness for C7 (amended), on the diamond graph and the absent
identifier Z. -/
theorem C7_witness :
    fixDiamond.hasNode "Z" = false ∧
    (fixDiamond.getAncestors "Z" = [] ∧ fixDiamond.getDescendants "Z" = [] ∧
     ∀ v, fixDiamond.getShortestPath "Z" v = none ∧
       fixDiamond.getShortestPath v "Z" = none ∧
       fixDiamond.isReachable "Z" v =
         .error "NodeNotFound: either source or target is not in G" ∧
       fixDiamond.isReachable v "Z" =
         .error "NodeNotFound: either source or target is not in G") :=
  ⟨by decide, C7_absent_endpoint_queries fixDiamond "Z" (by decide)⟩

/-- Resolution against an empty known-task set drops every reference. -/
theorem resolveRef_nil (ref : String) :
    DependencyResolver.resolveRef [] ref = none := rfl

/-- Templates resolved against an empty known-task set become their plain
`to_task` conversions (no dependencies survive). -/
theorem resolve_pair_nil (tpl : TaskTemplate) (fid : String) :
    ({ tpl.toTask fid with
        dependencies := tpl.dependencies.filterMap (DependencyResolver.resolveRef []) } :
      Task) = tpl.toTask fid := by
  have h0 : tpl.dependencies.filterMap (DependencyResolver.resolveRef []) = [] :=
    List.filterMap_eq_nil_iff.mpr fun a _ => rfl
  rw [h0]
  rfl

/-- C8: on a store of exactly 5 tasks, a valid CLEAR_ALL split with a batch
of 2 templates (and distinct fresh identifiers) succeeds, deletes every
existing task, creates both templates as new tasks, and records
`tasks_removed = 5`, `tasks_added = 2`, `tasks_before_count = 5`,
`tasks_after_count = 2`. -/
theorem C8_clear_all_scenario (s : SysState) (req : TaskSplitRequest)
    (id1 id2 : String)
    (hmode : req.update_mode = .CLEAR_ALL_TASKS)
    (hcount : s.table.rows.length = 5)
    (htpl : req.task_templates.length = 2)
    (hvalid : (TaskSplittingService.validateSplitRequest req).2 = [])
    (hne : id1 ≠ id2) :
    (TaskSplittingService.splitTasks s req [id1, id2]).1.success = true ∧
    (TaskSplittingService.splitTasks s req [id1, id2]).1.operation = some
      { operation_type := "split_tasks", update_mode := .CLEAR_ALL_TASKS,
        tasks_before_count := 5, tasks_after_count := 2, tasks_added := 2,
        tasks_updated := 0, tasks_removed := 5 } ∧
    (TaskSplittingService.splitTasks s req [id1, id2]).2.table.rows =
      (TaskSplittingService.splitTasks s req [id1, id2]).1.created_tasks ∧
    (TaskSplittingService.splitTasks s req [id1, id2]).1.created_tasks.length = 2 := by
  obtain ⟨t1, t2, htl⟩ := List.length_eq_two.mp htpl
  have hv : TaskSplittingService.validateSplitRequest req = (true, []) := by
    cases hp : TaskSplittingService.validateSplitRequest req with
    | mk fst snd =>
      have h1 : fst = snd.isEmpty := by
        have : (TaskSplittingService.validateSplitRequest req).1 =
            ((TaskSplittingService.validateSplitRequest req).2).isEmpty := rfl
        rw [hp] at this
        exact this
      have h2 : snd = [] := by
        have := hvalid
        rw [hp] at this
        exact this
      rw [h1, h2]
      rfl
  -- the two fresh creations, with normalized state literals
  have hc1 := SysState.createTask_fresh ({} : SysState) (t1.toTask id1) rfl rfl rfl
  dsimp only at hc1
  simp only [List.nil_append] at hc1
  have h2a : (TableState.mk [t1.toTask id1]).existsId (t2.toTask id2).id = false := by
    show ([t1.toTask id1].any fun r => r.id == id2) = false
    simp only [List.any_cons, List.any_nil, Bool.or_false]
    exact beq_eq_false_iff_ne.mpr hne
  have h2b : (GraphState.mk [SysState.graphNodeOf (t1.toTask id1)] []).hasNode
      (t2.toTask id2).id = false := by
    show ([SysState.graphNodeOf (t1.toTask id1)].any fun n => n.id == id2) = false
    simp only [List.any_cons, List.any_nil, Bool.or_false]
    exact beq_eq_false_iff_ne.mpr hne
  have hc2 := SysState.createTask_fresh { table := TableState.mk [t1.toTask id1], graph := GraphState.mk [SysState.graphNodeOf (t1.toTask id1)] [] } (t2.toTask id2) h2a h2b rfl
  dsimp only at hc2
  unfold TaskSplittingService.splitTasks
  rw [hv]
  dsimp only
  rw [if_neg (by simp : ¬ ((!true) = true))]
  rw [hmode]
  dsimp only
  unfold TaskSplittingService.createTasksFromTemplates
  rw [htl]
  dsimp only [List.zip_cons_cons, List.zip_nil_right]
  unfold DependencyResolver.resolveTaskDependencies
  simp only [List.map_cons, List.map_nil]
  rw [resolve_pair_nil t1 id1, resolve_pair_nil t2 id2]
  simp only [List.foldl_cons, List.foldl_nil]
  rw [show TaskSplittingService.clearAllTasks s = ({} : SysState) from rfl]
  rw [hc1]
  dsimp only
  rw [hc2]
  dsimp only
  simp [TaskSplittingService.getAllTasks, hcount]

/-- A store of five task records (the CLEAR_ALL scenario baseline). -/
def fixFiveState : SysState :=
  { table := ⟨[fixTask "id1" "N1", fixTask "id2" "N2", fixTask "id3" "N3",
               fixTask "id4" "N4", fixTask "id5" "N5"]⟩,
    graph := { nodes := [fixNode "id1", fixNode "id2", fixNode "id3",
                         fixNode "id4", fixNode "id5"], edges := [] } }

/-- A valid CLEAR_ALL request with a batch of two templates. -/
def fixReqC8 : TaskSplitRequest :=
  { update_mode := .CLEAR_ALL_TASKS,
    task_templates :=
      [{ name := "T1", description := "long enough description",
         implementation_guide := "guide text long enough" },
       { name := "T2", description := "long enough description",
         implementation_guide := "guide text long enough",
         dependencies := ["T1"] }] }

/-- Witness for C8 on the five-task store. -/
theorem C8_witness :
    (fixReqC8.update_mode = .CLEAR_ALL_TASKS ∧
     fixFiveState.table.rows.length = 5 ∧
     fixReqC8.task_templates.length = 2 ∧
     (TaskSplittingService.validateSplitRequest fixReqC8).2 = [] ∧
     "f1" ≠ "f2") ∧
    ((TaskSplittingService.splitTasks fixFiveState fixReqC8 ["f1", "f2"]).1.success = true ∧
     (TaskSplittingService.splitTasks fixFiveState fixReqC8 ["f1", "f2"]).1.operation = some
       { operation_type := "split_tasks", update_mode := .CLEAR_ALL_TASKS,
         tasks_before_count := 5, tasks_after_count := 2, tasks_added := 2,
         tasks_updated := 0, tasks_removed := 5 } ∧
     (TaskSplittingService.splitTasks fixFiveState fixReqC8 ["f1", "f2"]).2.table.rows =
       (TaskSplittingService.splitTasks fixFiveState fixReqC8 ["f1", "f2"]).1.created_tasks ∧
     (TaskSplittingService.splitTasks fixFiveState fixReqC8 ["f1", "f2"]).1.created_tasks.length = 2) :=
  ⟨⟨rfl, rfl, rfl, by decide, by decide⟩,
    C8_clear_all_scenario fixFiveState fixReqC8 "f1" "f2" rfl rfl rfl
      (by decide) (by decide)⟩

/-- C9: after a successful `create_task(t)`, `get_task(t.id)` returns the
stored record itself — equal to `t` in every field (name, description,
implementation guidance, verification text, status, priority, complexity,
estimated hours, dependencies, related files, category, notes; the
identifier and timestamps were already fixed on `t` before the call) — and
after `update_task(t')` on an existing identifier, `get_task(t'.id)` returns
`t'`, reflecting every changed field. -/
theorem C9_roundtrip (s s' : SysState) (t t' r : Task)
    (hok : (s.createTask t).1 = .ok r)
    (hex : s'.table.existsId t'.id = true) :
    (s.createTask t).2.getTask t.id = some t ∧
    (s'.updateTask t').2.getTask t'.id = some t' := by
  constructor
  · show (s.createTask t).2.table.getById t.id = some t
    rw [SysState.createTask_table_of_ok s t r hok]
    exact SysState.getById_append_of_absent s.table.rows t
      (SysState.createTask_ok_fresh s t r hok)
  · exact SysState.updateTask_getTask s' t' hex

/-- Record `b` with its status moved to COMPLETED. -/
def fixTaskBDone : Task := { fixTaskB with status := .COMPLETED }

/-- Witness for C9: create `b` on the empty state, and update `b` to
COMPLETED on the a/b state. -/
theorem C9_witness :
    ((({} : SysState).createTask fixTaskB).1 = .ok fixTaskB ∧
     fixStateAB.table.existsId fixTaskBDone.id = true) ∧
    ((({} : SysState).createTask fixTaskB).2.getTask fixTaskB.id = some fixTaskB ∧
     (fixStateAB.updateTask fixTaskBDone).2.getTask fixTaskBDone.id = some fixTaskBDone) :=
  ⟨⟨rfl, by decide⟩,
    C9_roundtrip {} fixStateAB fixTaskB fixTaskBDone fixTaskB rfl (by decide)⟩

/-- C10: every task produced by `resolve_task_dependencies` has status
PENDING, and every entry of its resolved dependency list is the identifier
of some task in the known-task list (a reference matching neither a known
identifier nor a known name contributes no dependency) — resolution never
yields a dangling dependency. -/
theorem C10_resolver_no_dangling (pairs : List (TaskTemplate × String))
    (existing : List Task) :
    ∀ task ∈ DependencyResolver.resolveTaskDependencies pairs existing,
      task.status = .PENDING ∧
      ∀ d ∈ task.dependencies, ∃ t ∈ existing, d.task_id = t.id := by
  intro task htask
  rcases List.mem_map.mp htask with ⟨p, _hp, rfl⟩
  refine ⟨rfl, ?_⟩
  intro d hd
  rcases List.mem_filterMap.mp hd with ⟨ref, _href, hres⟩
  unfold DependencyResolver.resolveRef at hres
  dsimp only at hres
  cases hfind : existing.reverse.find? (fun t => t.id == pyStrip ref) with
  | some t0 =>
    rw [hfind] at hres
    have hmem : t0 ∈ existing := List.mem_reverse.mp (List.mem_of_find?_eq_some hfind)
    have hbeq : (t0.id == pyStrip ref) = true := by
      have hp := List.find?_some hfind
      simpa using hp
    injection hres with hres'
    refine ⟨t0, hmem, ?_⟩
    rw [← hres']
    exact (eq_of_beq hbeq).symm
  | none =>
    rw [hfind] at hres
    cases hfind2 : existing.reverse.find? (fun t => t.name == pyStrip ref) with
    | some t0 =>
      rw [hfind2] at hres
      have hmem : t0 ∈ existing := List.mem_reverse.mp (List.mem_of_find?_eq_some hfind2)
      injection hres with hres'
      exact ⟨t0, hmem, by rw [← hres']⟩
    | none =>
      rw [hfind2] at hres
      cases hres

/-- A template referring to one known name and one unknown string. -/
def fixTplRes : TaskTemplate :=
  { name := "T9", description := "long enough description",
    implementation_guide := "guide text long enough",
    dependencies := ["N1", "nope"] }

/-- One known task. -/
def fixKnown : List Task := [fixTask "id1" "N1"]

/-- The resolved result of `fixTplRes` against `fixKnown`. -/
def fixResolvedTask : Task :=
  { fixTplRes.toTask "fx" with dependencies := [{ task_id := "id1" }] }

/-- Witness for C10: the name reference resolves to the known identifier and
the unknown reference is dropped. -/
theorem C10_witness :
    fixResolvedTask ∈
      DependencyResolver.resolveTaskDependencies [(fixTplRes, "fx")] fixKnown ∧
    (fixResolvedTask.status = .PENDING ∧
      ∀ d ∈ fixResolvedTask.dependencies, ∃ t ∈ fixKnown, d.task_id = t.id) :=
  ⟨by decide,
    C10_resolver_no_dangling [(fixTplRes, "fx")] fixKnown fixResolvedTask (by decide)⟩

end SpectrumCockpit
